import Mathlib

/-!
Verification of the rlox front-end (scanner, parser, evaluator) against its
natural-language specification.  The Rust sources are embedded shallowly:

* Machine `f64` numbers are modelled as `ℚ` (`Rat`).  Every claim touching
  numbers only involves exact small values (integers and one-digit sums and
  products), on which `f64` arithmetic is exact, so the abstraction is
  faithful for everything proved here.  Float formatting and division by
  zero are outside every claim.
* Byte offsets into the UTF-8 source are modelled as character offsets:
  the scanner only ever stops on character boundaries (each `advance`
  moves by the full length of one code point), so positions in the byte
  string correspond one-to-one with positions in the character list.
* Rust `panic!`-style unwrap failures are modelled as explicit outcomes of
  the parsing monad (`POut.panic` for `Option::unwrap` on `peek`/`previous`
  results, `POut.litPanic` for the unwrap of a literal payload).
* The possibly non-terminating scanner and parser loops take an explicit
  fuel argument; running out of fuel is a distinguished outcome (`none`
  resp. `POut.oof`), separate from every real outcome of the Rust code.
-/

namespace RLox

/-! ## Token model (src/token.rs) -/

/-- `TokenType` from src/token.rs.  Keyword kinds carry a `k` prefix because
`fun`, `if`, ... are reserved words in Lean. -/
inductive TokenType where
  | leftParen | rightParen | leftBrace | rightBrace
  | comma | dot | minus | plus | semicolon | slash | star
  | bang | bangEqual | equal | equalEqual
  | greater | greaterEqual | less | lessEqual
  | identifier | string | number
  | kAnd | kClass | kElse | kFalse | kFun | kFor | kIf | kNil
  | kOr | kPrint | kReturn | kSuper | kThis | kTrue | kVar | kWhile
  | eof
deriving DecidableEq

/-- `Literal` from src/token.rs; `f64` modelled as `ℚ`. -/
inductive Literal where
  | numberL (n : ℚ)
  | strL (s : String)
  | boolL (b : Bool)
  | nilL
deriving DecidableEq

/-- `Token` from src/token.rs. -/
structure Token where
  kind : TokenType
  lexeme : String
  literal : Option Literal
  line : Nat
deriving DecidableEq

/-! ## AST and runtime values (src/interpreter.rs) -/

/-- `Expr` from src/interpreter.rs. -/
inductive Expr where
  | binary (left : Expr) (operator : Token) (right : Expr)
  | grouping (inner : Expr)
  | literal (l : Literal)
  | unary (operator : Token) (right : Expr)
deriving DecidableEq

/-- `Stmt` from src/interpreter.rs. -/
inductive Stmt where
  | expression (e : Expr)
  | print (e : Expr)
deriving DecidableEq

/-- `Value` from src/interpreter.rs; `f64` modelled as `ℚ`. -/
inductive Value where
  | nil
  | bool (b : Bool)
  | number (n : ℚ)
  | str (s : String)
deriving DecidableEq

/-- `RuntimeError` from src/interpreter.rs: offending token plus message. -/
structure RuntimeError where
  token : Token
  message : String
deriving DecidableEq

/-- `Literal → Value` conversion (`impl From<Literal> for Value`). -/
def literalToValue : Literal → Value
  | .numberL n => .number n
  | .strL s => .str s
  | .boolL b => .bool b
  | .nilL => .nil

/-! ## Evaluator (src/interpreter.rs) -/

/-- `Interpreter::is_truthy`: nil and false are falsy, everything else truthy. -/
def is_truthy : Value → Bool
  | .nil => false
  | .bool b => b
  | _ => true

/-- `Interpreter::is_equal` (src/interpreter.rs lines 201-207), exactly as
written: only the bool/bool and nil/nil pairs are matched; every other pair
of values, including two numbers or two strings, falls to the catch-all
and yields `false`. -/
def is_equal : Value → Value → Bool
  | .bool l, .bool r => l == r
  | .nil, .nil => true
  | _, _ => false

/-- `Interpreter::number_operand_error`. -/
def number_operand_error (operator : Token) : RuntimeError :=
  ⟨operator, "Operand must be a number."⟩

/-- `Interpreter::number_operands_error` (note the source's singular
"a number" with plural "Operands"). -/
def number_operands_error (operator : Token) : RuntimeError :=
  ⟨operator, "Operands must be a number."⟩

/-- `Interpreter::evaluate` (src/interpreter.rs lines 84-183).  Division is
`ℚ` division; no claim exercises division by zero, where `f64` would give
an infinity instead. -/
def evaluate : Expr → Except RuntimeError Value
  | .literal v => .ok (literalToValue v)
  | .grouping inner => evaluate inner
  | .unary operator right => do
      let r ← evaluate right
      match operator.kind with
      | .minus =>
          match r with
          | .number n => .ok (.number (-n))
          | _ => .error (number_operand_error operator)
      | .bang => .ok (.bool (! is_truthy r))
      | _ => .ok .nil
  | .binary left operator right => do
      let l ← evaluate left
      let r ← evaluate right
      match operator.kind with
      | .minus =>
          match l, r with
          | .number a, .number b => .ok (.number (a - b))
          | _, _ => .error (number_operands_error operator)
      | .plus =>
          match l, r with
          | .number a, .number b => .ok (.number (a + b))
          | .str a, .str b => .ok (.str (a ++ b))
          | _, _ => .error ⟨operator, "Operands must be two numbers or two strings."⟩
      | .slash =>
          match l, r with
          | .number a, .number b => .ok (.number (a / b))
          | _, _ => .error (number_operands_error operator)
      | .star =>
          match l, r with
          | .number a, .number b => .ok (.number (a * b))
          | _, _ => .error (number_operands_error operator)
      | .greater =>
          match l, r with
          | .number a, .number b => .ok (.bool (decide (a > b)))
          | _, _ => .error (number_operands_error operator)
      | .greaterEqual =>
          match l, r with
          | .number a, .number b => .ok (.bool (decide (a ≥ b)))
          | _, _ => .error (number_operands_error operator)
      | .less =>
          match l, r with
          | .number a, .number b => .ok (.bool (decide (a < b)))
          | _, _ => .error (number_operands_error operator)
      | .lessEqual =>
          match l, r with
          | .number a, .number b => .ok (.bool (decide (a ≤ b)))
          | _, _ => .error (number_operands_error operator)
      | .bangEqual => .ok (.bool (! is_equal l r))
      | .equalEqual => .ok (.bool (is_equal l r))
      | _ => .ok .nil

/-- Decimal rendering of a rational, standing in for Rust's `f64` `Display`
inside `stringify`.  No claim depends on the exact digits printed for a
number; only the structure of `stringify` matters. -/
def ratToString (q : ℚ) : String :=
  if q.den = 1 then toString q.num else toString q.num ++ "." ++ toString q.den

/-- `Interpreter::stringify` (src/interpreter.rs lines 209-223). -/
def stringify : Value → String
  | .nil => "nil"
  | .str s => s
  | .bool b => if b then "true" else "false"
  | .number n => ratToString n

/-- `Interpreter::execute` (src/interpreter.rs lines 70-82): an
expression-statement evaluates and discards, a print-statement evaluates
and emits one output line.  The returned list is the statement's standard
output. -/
def execute : Stmt → Except RuntimeError (List String)
  | .expression e =>
      match evaluate e with
      | .ok _ => .ok []
      | .error err => .error err
  | .print e =>
      match evaluate e with
      | .ok v => .ok [stringify v]
      | .error err => .error err

/-- `Interpreter::interpret` (src/interpreter.rs lines 54-68): execute each
statement in order; a runtime error is reported (`Lox::runtime_error`, which
appends to the sink and sets the runtime-error flag) and the loop continues
with the next statement.  Result: all output lines in order, and the list
of reported runtime errors in order. -/
def interpret : List Stmt → List String × List RuntimeError
  | [] => ([], [])
  | st :: rest =>
      match execute st with
      | .ok out =>
          let r := interpret rest
          (out ++ r.1, r.2)
      | .error e =>
          let r := interpret rest
          (r.1, e :: r.2)

/-! ## Scanner (src/scanner.rs)

The scanner state mirrors `Scanner`'s fields; the shared `Lox` error sink is
modelled by the `errors` list (`Lox::error` appends a `(line, message)` pair
and sets the `had_error` flag, so the flag is `errors ≠ []`).  `source` is
the character list of the input; offsets are character offsets (see the
header note on UTF-8).  Loops carry explicit fuel because the source's
`string` loop does not always advance. -/

structure ScanState where
  source : List Char
  start : Nat
  current : Nat
  line : Nat
  tokens : List Token
  errors : List (Nat × String)
deriving DecidableEq

/-- Initial scanner state (`Scanner::new`). -/
def mkScanState (src : String) : ScanState :=
  ⟨src.data, 0, 0, 1, [], []⟩

/-- The NUL sentinel the source's `peek` returns at end of input. -/
def nulChar : Char := Char.ofNat 0

/-- `Scanner::is_at_end`. -/
def isAtEndS (s : ScanState) : Bool := s.current ≥ s.source.length

/-- `Scanner::peek`: current character, or NUL at end. -/
def peekS (s : ScanState) : Char := s.source.getD s.current nulChar

/-- `Scanner::peek_next`. -/
def peekNextS (s : ScanState) : Char := s.source.getD (s.current + 1) nulChar

/-- `Scanner::advance`: return the current character and move past it,
except that the NUL sentinel is never moved past. -/
def advanceS (s : ScanState) : Char × ScanState :=
  let ch := peekS s
  if ch ≠ nulChar then (ch, { s with current := s.current + 1 }) else (ch, s)

/-- `Scanner::match_char`. -/
def matchCharS (s : ScanState) (expected : Char) : Bool × ScanState :=
  if peekS s = expected then (true, { s with current := s.current + 1 })
  else (false, s)

/-- `Lox::error` as seen from the scanner: record `(line, message)`. -/
def recordScanError (s : ScanState) (msg : String) : ScanState :=
  { s with errors := s.errors ++ [(s.line, msg)] }

/-- `Scanner::add_token`: lexeme is `source[start..current]`. -/
def addToken (s : ScanState) (kind : TokenType) (lit : Option Literal) : ScanState :=
  let text := String.mk ((s.source.drop s.start).take (s.current - s.start))
  { s with tokens := s.tokens ++ [⟨kind, text, lit, s.line⟩] }

/-- The keyword table `KEYWORDS` from src/scanner.rs. -/
def keywordLookup : String → Option TokenType
  | "and" => some .kAnd
  | "class" => some .kClass
  | "else" => some .kElse
  | "false" => some .kFalse
  | "fun" => some .kFun
  | "for" => some .kFor
  | "if" => some .kIf
  | "nil" => some .kNil
  | "or" => some .kOr
  | "print" => some .kPrint
  | "return" => some .kReturn
  | "super" => some .kSuper
  | "this" => some .kThis
  | "true" => some .kTrue
  | "var" => some .kVar
  | "while" => some .kWhile
  | _ => none

/-- Value of a digit character. -/
def digitVal (c : Char) : Nat := c.toNat - 48

/-- Natural number denoted by a digit string. -/
def digitsToNat (cs : List Char) : Nat :=
  cs.foldl (fun a c => a * 10 + digitVal c) 0

/-- Exact rational value of a scanned numeric lexeme (digits, optionally
followed by a dot and more digits).  Stands in for Rust's
`value.parse::<f64>().unwrap_or(0.0)`: on the lexemes the scanner's number
path produces, `parse` succeeds, and the claims exercise no value where
`f64` rounding differs from the exact rational. -/
def parseDecimal (cs : List Char) : ℚ :=
  let intPart := cs.takeWhile (·.isDigit)
  let rest := cs.dropWhile (·.isDigit)
  match rest with
  | _dot :: frac =>
      (digitsToNat intPart : ℚ) + (digitsToNat frac : ℚ) / ((10 : ℚ) ^ frac.length)
  | [] => (digitsToNat intPart : ℚ)

/-- The loop inside `Scanner::string` (src/scanner.rs lines 177-182),
exactly as written: while the next character is not a quote and the end is
not reached, the body advances ONLY when the next character is a newline —
for any other character the state is left unchanged and the loop spins.
Fuel bounds the number of iterations; `none` means the fuel ran out. -/
def stringLoopF : Nat → ScanState → Option ScanState
  | 0, s =>
      if peekS s ≠ '"' ∧ ¬ isAtEndS s then none else some s
  | n + 1, s =>
      if peekS s ≠ '"' ∧ ¬ isAtEndS s then
        let s' :=
          if peekS s = '\n' then
            (advanceS { s with line := s.line + 1 }).2
          else s
        stringLoopF n s'
      else some s

/-- `Scanner::string` (src/scanner.rs lines 176-191). -/
def stringF (n : Nat) (s : ScanState) : Option ScanState :=
  match stringLoopF n s with
  | none => none
  | some s1 =>
      if isAtEndS s1 then some (recordScanError s1 "Unterminated string.")
      else
        let s2 := (advanceS s1).2
        let value := String.mk ((s2.source.drop (s2.start + 1)).take (s2.current - 1 - (s2.start + 1)))
        some (addToken s2 .string (some (.strL value)))

/-- The comment-skipping loop inside `Scanner::scan_token`'s `/` branch. -/
def commentLoopF : Nat → ScanState → Option ScanState
  | 0, s => if peekS s ≠ '\n' ∧ ¬ isAtEndS s then none else some s
  | n + 1, s =>
      if peekS s ≠ '\n' ∧ ¬ isAtEndS s then commentLoopF n (advanceS s).2
      else some s

/-- A digit-consuming loop inside `Scanner::number`. -/
def digitLoopF : Nat → ScanState → Option ScanState
  | 0, s => if (peekS s).isDigit then none else some s
  | n + 1, s =>
      if (peekS s).isDigit then digitLoopF n (advanceS s).2
      else some s

/-- `Scanner::number` (src/scanner.rs lines 193-210). -/
def numberF (n : Nat) (s : ScanState) : Option ScanState :=
  match digitLoopF n s with
  | none => none
  | some s1 =>
      let s2kont := fun (s2 : ScanState) =>
        let value := (s2.source.drop s2.start).take (s2.current - s2.start)
        some (addToken s2 .number (some (.numberL (parseDecimal value))))
      if peekS s1 = '.' ∧ (peekNextS s1).isDigit then
        match digitLoopF n (advanceS s1).2 with
        | none => none
        | some s2 => s2kont s2
      else s2kont s1

/-- `Scanner::identifier` (src/scanner.rs lines 212-219).  Rust's Unicode
`char::is_alphanumeric` is modelled by `Char.isAlphanum`; no claim involves
a non-ASCII identifier character. -/
def identLoopF : Nat → ScanState → Option ScanState
  | 0, s => if (peekS s).isAlphanum then none else some s
  | n + 1, s =>
      if (peekS s).isAlphanum then identLoopF n (advanceS s).2
      else some s

/-- Tail of `Scanner::identifier` after its loop: keyword lookup. -/
def identifierF (n : Nat) (s : ScanState) : Option ScanState :=
  match identLoopF n s with
  | none => none
  | some s1 =>
      let text := String.mk ((s1.source.drop s1.start).take (s1.current - s1.start))
      let kind := (keywordLookup text).getD .identifier
      some (addToken s1 kind none)

/-- `Scanner::scan_token` (src/scanner.rs lines 62-134).  Rust's Unicode
`char::is_alphabetic` is modelled by `Char.isAlpha` (ASCII); `is_ascii_digit`
is exactly `Char.isDigit`. -/
def scanTokenF (n : Nat) (s0 : ScanState) : Option ScanState :=
  let (c, s) := advanceS s0
  if c = '(' then some (addToken s .leftParen none)
  else if c = ')' then some (addToken s .rightParen none)
  else if c = '{' then some (addToken s .leftBrace none)
  else if c = '}' then some (addToken s .rightBrace none)
  else if c = ',' then some (addToken s .comma none)
  else if c = '.' then some (addToken s .dot none)
  else if c = '-' then some (addToken s .minus none)
  else if c = '+' then some (addToken s .plus none)
  else if c = ';' then some (addToken s .semicolon none)
  else if c = '*' then some (addToken s .star none)
  else if c = '!' then
    let (m, s1) := matchCharS s '='
    some (addToken s1 (if m then .bangEqual else .bang) none)
  else if c = '=' then
    let (m, s1) := matchCharS s '='
    some (addToken s1 (if m then .equalEqual else .equal) none)
  else if c = '<' then
    let (m, s1) := matchCharS s '='
    some (addToken s1 (if m then .lessEqual else .less) none)
  else if c = '>' then
    let (m, s1) := matchCharS s '='
    some (addToken s1 (if m then .greaterEqual else .greater) none)
  else if c = '/' then
    let (m, s1) := matchCharS s '/'
    if m then commentLoopF n s1 else some (addToken s1 .slash none)
  else if c = ' ' then some s
  else if c = '\r' then some s
  else if c = '\t' then some s
  else if c = '\n' then some { s with line := s.line + 1 }
  else if c = '"' then stringF n s
  else if c.isDigit then numberF n s
  else if c.isAlpha then identifierF n s
  else some (recordScanError s "Unexpected character")

/-- The `while !self.is_at_end()` loop of `Scanner::scan_tokens`
(src/scanner.rs lines 51-54). -/
def scanLoopF : Nat → ScanState → Option ScanState
  | 0, s => if isAtEndS s then some s else none
  | n + 1, s =>
      if isAtEndS s then some s
      else
        match scanTokenF n { s with start := s.current } with
        | none => none
        | some s' => scanLoopF n s'

/-- `Scanner::scan_tokens` (src/scanner.rs lines 50-60): run the scan loop,
then append the single end-of-input token carrying the final line counter.
`none` means the loops exceeded the given fuel (in particular: the Rust
code does not terminate within that many iterations). -/
def scan_tokens (n : Nat) (src : String) : Option ScanState :=
  (scanLoopF n (mkScanState src)).map fun s =>
    { s with tokens := s.tokens ++ [⟨.eof, "", none, s.line⟩] }

/-! ## Parser (src/parser.rs)

The parser state mirrors `Parser`'s fields; the `Lox` sink is the `errors`
list (`Lox::error_at` appends `(token, message)` and sets `had_error`).
Outcomes distinguish the source's `Result` (`ok`/`perr`), a Rust
`Option::unwrap` panic on a `peek`/`previous` result (`panic`), the unwrap
of a missing literal payload in `primary` (`litPanic`), and fuel exhaustion
(`oof`). -/

structure PState where
  tokens : List Token
  current : Nat
  errors : List (Token × String)
deriving DecidableEq

/-- Initial parser state (`Parser::new`). -/
def mkPState (ts : List Token) : PState := ⟨ts, 0, []⟩

/-- Outcome of a parsing function. -/
inductive POut (α : Type) where
  | panic
  | litPanic
  | oof
  | perr (s : PState)
  | ok (a : α) (s : PState)
deriving DecidableEq

/-- `Parser::peek`. -/
def peekP (s : PState) : Option Token := s.tokens.get? s.current

/-- `Parser::previous`. -/
def previousP (s : PState) : Option Token :=
  if s.current > 0 then s.tokens.get? (s.current - 1) else none

/-- `Parser::is_at_end`: true when the current token is Eof (false when the
cursor is outside the list, mirroring `unwrap_or(false)`). -/
def isAtEndP (s : PState) : Bool :=
  ((peekP s).map fun t => t.kind == .eof).getD false

/-- `Parser::advance`: move the cursor (unless at Eof) and return
`previous()` of the new state. -/
def advanceP (s : PState) : Option Token × PState :=
  let s' := if isAtEndP s then s else { s with current := s.current + 1 }
  (previousP s', s')

/-- `Parser::check`. -/
def checkP (s : PState) (kind : TokenType) : Bool :=
  if isAtEndP s then false
  else ((peekP s).map fun t => t.kind == kind).getD false

/-- `Parser::_match`: try each kind in order; on the first hit advance and
report success, otherwise leave the state unchanged. -/
def matchTokens (s : PState) : List TokenType → Bool × PState
  | [] => (false, s)
  | k :: ks => if checkP s k then (true, (advanceP s).2) else matchTokens s ks

/-- `Parser::error` / `Lox::error_at`: record `(token, message)`. -/
def recordError (s : PState) (t : Token) (msg : String) : PState :=
  { s with errors := s.errors ++ [(t, msg)] }

/-- `Parser::consume` (src/parser.rs lines 108-115). -/
def consumeT (s : PState) (kind : TokenType) (msg : String) : POut Token :=
  if checkP s kind then
    match advanceP s with
    | (none, _) => .panic
    | (some t, s') => .ok t s'
  else
    match peekP s with
    | none => .panic
    | some t => .perr (recordError s t msg)

/-- The message of the grouping branch of `primary`. -/
def rparenMsg : String := "Expect " ++ String.mk [Char.ofNat 39, ')', Char.ofNat 39] ++ " after expression."

/-- Call tags for the mutually recursive expression-grammar functions of
src/parser.rs.  The source's generic `left_binop` appears once per level:
a `…Loop` tag is its `while self._match(kinds)` loop specialised to that
level's operator list and operand parser, carrying the accumulated
left-associative expression. -/
inductive PCall where
  | pExpression
  | pEquality
  | pEqLoop (acc : Expr)
  | pComparison
  | pCmpLoop (acc : Expr)
  | pTerm
  | pTermLoop (acc : Expr)
  | pFactor
  | pFactorLoop (acc : Expr)
  | pUnary
  | pPrimary
deriving DecidableEq

/-- Operator kinds of `equality`. -/
def eqOps : List TokenType := [.bangEqual, .equalEqual]
/-- Operator kinds of `comparison`. -/
def cmpOps : List TokenType := [.greater, .greaterEqual, .less, .lessEqual]
/-- Operator kinds of `term`. -/
def termOps : List TokenType := [.minus, .plus]
/-- Operator kinds of `factor`. -/
def factorOps : List TokenType := [.slash, .star]

/-- One step of a `left_binop` loop body (src/parser.rs lines 150-158),
shared by the four levels: after a successful `_match`, clone `previous()`
(unwrap) and parse the right operand with `next`. -/
def leftLoopStep (next : PState → POut Expr) (acc : Expr) (s1 : PState)
    (kont : Expr → PState → POut Expr) : POut Expr :=
  match previousP s1 with
  | none => .panic
  | some op =>
      match next s1 with
      | .ok r s2 => kont (.binary acc op r) s2
      | other => other

/-- The expression grammar of src/parser.rs (lines 34-106 plus `left_binop`
at 148-160), as one fueled recursion over call tags; every nested call runs
on one unit less fuel, and fuel 0 yields `oof`.  Each tag's branch mirrors
the correspondingly named Rust function. -/
def parseRun : Nat → PCall → PState → POut Expr
  | 0, _, _ => .oof
  | n + 1, c, s =>
      match c with
      | .pExpression => parseRun n .pEquality s
      | .pEquality =>
          match parseRun n .pComparison s with
          | .ok e s' => parseRun n (.pEqLoop e) s'
          | other => other
      | .pEqLoop acc =>
          match matchTokens s eqOps with
          | (true, s1) =>
              leftLoopStep (parseRun n .pComparison) acc s1
                (fun e s2 => parseRun n (.pEqLoop e) s2)
          | (false, s1) => .ok acc s1
      | .pComparison =>
          match parseRun n .pTerm s with
          | .ok e s' => parseRun n (.pCmpLoop e) s'
          | other => other
      | .pCmpLoop acc =>
          match matchTokens s cmpOps with
          | (true, s1) =>
              leftLoopStep (parseRun n .pTerm) acc s1
                (fun e s2 => parseRun n (.pCmpLoop e) s2)
          | (false, s1) => .ok acc s1
      | .pTerm =>
          match parseRun n .pFactor s with
          | .ok e s' => parseRun n (.pTermLoop e) s'
          | other => other
      | .pTermLoop acc =>
          match matchTokens s termOps with
          | (true, s1) =>
              leftLoopStep (parseRun n .pFactor) acc s1
                (fun e s2 => parseRun n (.pTermLoop e) s2)
          | (false, s1) => .ok acc s1
      | .pFactor =>
          match parseRun n .pUnary s with
          | .ok e s' => parseRun n (.pFactorLoop e) s'
          | other => other
      | .pFactorLoop acc =>
          match matchTokens s factorOps with
          | (true, s1) =>
              leftLoopStep (parseRun n .pUnary) acc s1
                (fun e s2 => parseRun n (.pFactorLoop e) s2)
          | (false, s1) => .ok acc s1
      | .pUnary =>
          match matchTokens s [.bang, .minus] with
          | (true, s1) =>
              match previousP s1 with
              | none => .panic
              | some op =>
                  match parseRun n .pUnary s1 with
                  | .ok r s2 => .ok (.unary op r) s2
                  | other => other
          | (false, _) => parseRun n .pPrimary s
      | .pPrimary =>
          match matchTokens s [.kFalse] with
          | (true, s1) => .ok (.literal (.boolL false)) s1
          | (false, _) =>
          match matchTokens s [.kTrue] with
          | (true, s1) => .ok (.literal (.boolL true)) s1
          | (false, _) =>
          match matchTokens s [.kNil] with
          | (true, s1) => .ok (.literal .nilL) s1
          | (false, _) =>
          match matchTokens s [.number, .string] with
          | (true, s1) =>
              match previousP s1 with
              | none => .panic
              | some t =>
                  match t.literal with
                  | none => .litPanic
                  | some l => .ok (.literal l) s1
          | (false, _) =>
          match matchTokens s [.leftParen] with
          | (true, s1) =>
              match parseRun n .pExpression s1 with
              | .ok e s2 =>
                  -- `let _ = self.consume(...)`: the Err is discarded; only
                  -- the state change (recorded error / consumed paren) and a
                  -- possible unwrap panic survive.
                  match consumeT s2 .rightParen rparenMsg with
                  | .panic => .panic
                  | .litPanic => .litPanic
                  | .oof => .oof
                  | .ok _ s3 => .ok (.grouping e) s3
                  | .perr s3 => .ok (.grouping e) s3
              | other => other
          | (false, _) =>
          match peekP s with
          | none => .panic
          | some t => .perr (recordError s t "Expect expression.")

/-- `Parser::expression` entry point with fuel. -/
def expressionF (n : Nat) (s : PState) : POut Expr := parseRun n .pExpression s

/-- `Parser::parse` (src/parser.rs lines 27-32): parse one expression and
fold the outcome into `Option`: `Some` on success, `None` after a reported
parse error. -/
def parseF (n : Nat) (s : PState) : POut (Option Expr) :=
  match expressionF n s with
  | .ok e s' => .ok (some e) s'
  | .perr s' => .ok none s'
  | .panic => .panic
  | .litPanic => .litPanic
  | .oof => .oof

/-- Stop condition of `Parser::synchronize`'s loop: at Eof, or a semicolon
was just consumed, or the next token starts a statement. -/
def syncStop (s : PState) : Bool :=
  isAtEndP s ||
  ((previousP s).map fun t => t.kind == .semicolon).getD false ||
  ((peekP s).map fun t =>
      t.kind == .kClass || t.kind == .kFun || t.kind == .kVar || t.kind == .kFor ||
      t.kind == .kIf || t.kind == .kWhile || t.kind == .kPrint || t.kind == .kReturn).getD false

/-- The `while` loop of `Parser::synchronize` (src/parser.rs lines 125-145). -/
def syncLoopF : Nat → PState → Option PState
  | 0, s => if syncStop s then some s else none
  | n + 1, s => if syncStop s then some s else syncLoopF n (advanceP s).2

/-- `Parser::synchronize` (src/parser.rs lines 122-146): advance once, then
discard tokens until the stop condition holds.  (The source's `parse` never
calls this method.) -/
def synchronizeF (n : Nat) (s : PState) : Option PState :=
  syncLoopF n (advanceP s).2

/-- The expression carried by a successful parse outcome. -/
def parsedExpr : POut (Option Expr) → Option Expr
  | .ok oe _ => oe
  | _ => none

/-- The recorded syntax errors of a parse outcome. -/
def poutErrors : POut (Option Expr) → List (Token × String)
  | .ok _ s => s.errors
  | .perr s => s.errors
  | _ => []

/-! ## Invariants, pipeline helpers, and concrete programs -/

/-- Shape of the token vectors `scan_tokens` produces, as far as the parser's
cursor safety needs it: the cursor is strictly inside the vector and the
vector's last element is an Eof token. -/
def InvB (s : PState) : Bool :=
  decide (s.current < s.tokens.length) &&
  (((s.tokens.get? (s.tokens.length - 1)).map fun t => t.kind == .eof).getD false)

/-- A parsing outcome is good when it is not a `peek`/`previous` unwrap
panic and every state it carries still satisfies `InvB`.  (`litPanic`, the
unwrap of a missing literal payload, is outside the safety property, and
`oof` only reports exhausted fuel.) -/
def Good {α : Type} : POut α → Prop
  | .panic => False
  | .litPanic => True
  | .oof => True
  | .perr s => InvB s = true
  | .ok _ s => InvB s = true

/-- Scan, then parse: the expression the pipeline's front half produces. -/
def scanParse (n : Nat) (src : String) : Option Expr :=
  match scan_tokens n src with
  | some st => parsedExpr (parseF n (mkPState st.tokens))
  | none => none

/-- Concrete tokens used by the theorems (shaped exactly as the scanner
builds them for single-line sources). -/
def eofTok : Token := ⟨.eof, "", none, 1⟩
def numTok (q : ℚ) (lx : String) : Token := ⟨.number, lx, some (.numberL q), 1⟩
def plusTok : Token := ⟨.plus, "+", none, 1⟩
def starTok : Token := ⟨.star, "*", none, 1⟩
def minusTok : Token := ⟨.minus, "-", none, 1⟩
def semiTok : Token := ⟨.semicolon, ";", none, 1⟩
def printTok : Token := ⟨.kPrint, "print", none, 1⟩
def lparenTok : Token := ⟨.leftParen, "(", none, 1⟩
def eqeqTok : Token := ⟨.equalEqual, "==", none, 1⟩

/-- Token form of `print 1 ;`. -/
def printProgTokens : List Token := [printTok, numTok 1 "1", semiTok, eofTok]
/-- Token form of `1 + 2 ;`. -/
def exprProgTokens : List Token := [numTok 1 "1", plusTok, numTok 2 "2", semiTok, eofTok]
/-- Token form of `+ 1 ; + 2 ;` — two malformed statements separated by
semicolons. -/
def twoBadTokens : List Token :=
  [plusTok, numTok 1 "1", semiTok, plusTok, numTok 2 "2", semiTok, eofTok]
/-- Token form of `( 1 ;` — a grouping whose closing paren is missing. -/
def groupBadTokens : List Token := [lparenTok, numTok 1 "1", semiTok, eofTok]

/-- The tree `1 + (2 * 3)`. -/
def tree7 : Expr :=
  .binary (.literal (.numberL 1)) plusTok
    (.binary (.literal (.numberL 2)) starTok (.literal (.numberL 3)))
/-- The tree `(1 + 2) * 3` with the grouping node. -/
def tree9 : Expr :=
  .binary (.grouping (.binary (.literal (.numberL 1)) plusTok (.literal (.numberL 2))))
    starTok (.literal (.numberL 3))

/-- `print "hi" ;` as a statement. -/
def printHiStmt : Stmt := .print (.literal (.strL "hi"))
/-- `print 2 ;` as a statement. -/
def printTwoStmt : Stmt := .print (.literal (.numberL 2))
/-- `- "abc" ;` as an expression statement — its evaluation is a runtime
type error. -/
def badMinusStmt : Stmt := .expression (.unary minusTok (.literal (.strL "abc")))
/-- The runtime error `- "abc"` produces. -/
def minusStrErr : RuntimeError := ⟨minusTok, "Operand must be a number."⟩


/-! ## Proofs -/

/-- The body of the source's string loop leaves the state untouched whenever
the next character is neither `"` nor a newline, so the loop consumes every
amount of fuel without terminating. -/
lemma stringLoop_spin (n : Nat) (s : ScanState)
    (h1 : peekS s ≠ '"') (h2 : peekS s ≠ '\n') (h3 : isAtEndS s = false) :
    stringLoopF n s = none := by
  induction n with
  | zero => simp [stringLoopF, h1, h3]
  | succ n ih =>
      simp only [stringLoopF, h3, h1]
      rw [if_pos ⟨h1, by simp [h3]⟩]
      rw [if_neg h2]
      exact ih

/-- Scanning any source that starts with a `"` followed by a character other
than `"` and newline never returns, for every amount of fuel: the scan
enters `string`, whose loop spins on that character. -/
lemma scanLoop_quote_stuck (c : Char) (rest : List Char)
    (hc1 : c ≠ '"') (hc2 : c ≠ '\n') :
    ∀ n, scanLoopF n ⟨'"' :: c :: rest, 0, 0, 1, [], []⟩ = none := by
  intro n
  cases n with
  | zero => rfl
  | succ m =>
      have hpeek : peekS ⟨'"' :: c :: rest, 0, 1, 1, [], []⟩ = c := rfl
      have hae : isAtEndS ⟨'"' :: c :: rest, 0, 1, 1, [], []⟩ = false := rfl
      have h := stringLoop_spin m ⟨'"' :: c :: rest, 0, 1, 1, [], []⟩
        (by rw [hpeek]; exact hc1) (by rw [hpeek]; exact hc2) hae
      have hTok : scanTokenF m ⟨'"' :: c :: rest, 0, 0, 1, [], []⟩ = none := by
        rw [show scanTokenF m ⟨'"' :: c :: rest, 0, 0, 1, [], []⟩ =
          stringF m ⟨'"' :: c :: rest, 0, 1, 1, [], []⟩ from rfl]
        unfold stringF
        rw [h]
      rw [show scanLoopF (m + 1) ⟨'"' :: c :: rest, 0, 0, 1, [], []⟩ =
        (match scanTokenF m ⟨'"' :: c :: rest, 0, 0, 1, [], []⟩ with
          | none => none
          | some s' => scanLoopF m s') from rfl]
      rw [hTok]

/-- `interpret` distributes over concatenation of statement lists: output
lines and reported runtime errors are both concatenated in order. -/
lemma interpret_append (xs ys : List Stmt) :
    interpret (xs ++ ys) =
      ((interpret xs).1 ++ (interpret ys).1, (interpret xs).2 ++ (interpret ys).2) := by
  induction xs with
  | nil => simp [interpret]
  | cons st rest ih =>
      simp only [List.cons_append, interpret]
      cases execute st with
      | ok out => simp [ih]
      | error e => simp [ih]

lemma inv_iff (s : PState) : InvB s = true ↔
    s.current < s.tokens.length ∧
    (((s.tokens.get? (s.tokens.length - 1)).map fun t => t.kind == .eof).getD false) = true := by
  simp [InvB]

lemma peek_isSome_of_inv (s : PState) (h : InvB s = true) : (peekP s).isSome = true := by
  rcases (inv_iff s).1 h with ⟨h1, _⟩
  simp [peekP, List.getElem?_eq_getElem h1]

lemma inv_recordError (s : PState) (t : Token) (m : String) :
    InvB (recordError s t m) = InvB s := rfl

lemma check_isAtEnd_false (s : PState) (k : TokenType) (h : checkP s k = true) :
    isAtEndP s = false := by
  unfold checkP at h
  by_cases he : isAtEndP s = true
  · rw [if_pos he] at h; cases h
  · simpa using he

lemma check_peek (s : PState) (k : TokenType) (h : checkP s k = true) :
    ∃ t, peekP s = some t ∧ t.kind = k := by
  have hAE := check_isAtEnd_false s k h
  unfold checkP at h
  rw [hAE] at h
  simp at h
  cases hp : peekP s with
  | none => rw [hp] at h; simp at h
  | some t =>
      rw [hp] at h
      simp at h
      exact ⟨t, rfl, h⟩

lemma check_ne (s : PState) (k k' : TokenType) (h : checkP s k = true) (hne : k' ≠ k) :
    checkP s k' = false := by
  rcases check_peek s k h with ⟨t, hp, hk⟩
  unfold checkP
  rw [check_isAtEnd_false s k h]
  simp [hp, hk]
  exact fun hkk => (hne hkk.symm).elim

lemma inv_current_succ (s : PState) (k : TokenType)
    (hInv : InvB s = true) (h : checkP s k = true) :
    s.current + 1 < s.tokens.length := by
  rcases (inv_iff s).1 hInv with ⟨h1, h2⟩
  rcases check_peek s k h with ⟨t, hp, hk⟩
  have hAE := check_isAtEnd_false s k h
  by_contra hlt
  push_neg at hlt
  have hcur : s.current = s.tokens.length - 1 := by omega
  have hp' : s.tokens.get? (s.tokens.length - 1) = some t := by
    rw [← hcur]; exact hp
  rw [hp'] at h2
  simp at h2
  unfold isAtEndP at hAE
  rw [show peekP s = some t from hp] at hAE
  simp [h2] at hAE

lemma advance_state (s : PState) (hAE : isAtEndP s = false) :
    (advanceP s).2 = { s with current := s.current + 1 } := by
  unfold advanceP
  simp [hAE]

lemma inv_advance (s : PState) (k : TokenType)
    (hInv : InvB s = true) (h : checkP s k = true) :
    InvB (advanceP s).2 = true ∧ ∃ t, previousP (advanceP s).2 = some t := by
  have hAE := check_isAtEnd_false s k h
  have hst := advance_state s hAE
  have hsucc := inv_current_succ s k hInv h
  rcases (inv_iff s).1 hInv with ⟨h1, h2⟩
  constructor
  · rw [hst]
    apply (inv_iff _).2
    exact ⟨by simpa using hsucc, by simpa using h2⟩
  · rw [hst]
    unfold previousP
    rw [if_pos (by exact Nat.succ_pos _)]
    refine ⟨s.tokens[s.current], ?_⟩
    simp only [Nat.succ_sub_one]
    rw [List.get?_eq_getElem?]
    exact List.getElem?_eq_getElem h1

lemma match_false (s s' : PState) (ks : List TokenType)
    (h : matchTokens s ks = (false, s')) : s' = s := by
  induction ks with
  | nil => unfold matchTokens at h; cases h; rfl
  | cons k ks ih =>
      unfold matchTokens at h
      by_cases hc : checkP s k = true
      · rw [if_pos hc] at h; cases h
      · rw [if_neg hc] at h; exact ih h

lemma match_true (s s' : PState) (ks : List TokenType)
    (hInv : InvB s = true) (h : matchTokens s ks = (true, s')) :
    InvB s' = true ∧ ∃ t, previousP s' = some t := by
  induction ks with
  | nil => unfold matchTokens at h; cases h
  | cons k ks ih =>
      unfold matchTokens at h
      by_cases hc : checkP s k = true
      · rw [if_pos hc] at h
        have := inv_advance s k hInv hc
        cases h
        exact this
      · rw [if_neg hc] at h; exact ih h

lemma consume_good (s : PState) (k : TokenType) (m : String)
    (hInv : InvB s = true) : Good (consumeT s k m) := by
  unfold consumeT
  by_cases hc : checkP s k = true
  · rw [if_pos hc]
    rcases inv_advance s k hInv hc with ⟨hInv', t, hprev⟩
    rcases hadv : advanceP s with ⟨op, s2⟩
    have hs2 : s2 = (advanceP s).2 := by rw [hadv]
    have hop : op = (advanceP s).1 := by rw [hadv]
    have h1 : (advanceP s).1 = previousP (advanceP s).2 := rfl
    rw [h1, ← hs2] at hop
    rw [← hs2] at hprev
    rw [hprev] at hop
    subst hop
    show InvB s2 = true
    rw [hs2]; exact hInv'
  · rw [if_neg hc]
    have hpk := peek_isSome_of_inv s hInv
    cases hp : peekP s with
    | none => rw [hp] at hpk; cases hpk
    | some t =>
        show Good (POut.perr (recordError s t m))
        show InvB (recordError s t m) = true
        rw [inv_recordError]; exact hInv

lemma loopStep_good (next : PState → POut Expr) (kont : Expr → PState → POut Expr)
    (acc : Expr) (s1 : PState)
    (hnext : ∀ u, InvB u = true → Good (next u))
    (hkont : ∀ e u, InvB u = true → Good (kont e u))
    (hInv1 : InvB s1 = true) (t : Token) (hprev : previousP s1 = some t) :
    Good (leftLoopStep next acc s1 kont) := by
  unfold leftLoopStep
  rw [hprev]
  have g := hnext s1 hInv1
  cases hr : next s1 with
  | ok r s2 =>
      rw [hr] at g
      exact hkont (.binary acc t r) s2 g
  | perr s2 => rw [hr] at g; exact g
  | panic => rw [hr] at g; exact g.elim
  | litPanic => trivial
  | oof => trivial

lemma level_good (inner : PState → POut Expr) (kont : Expr → PState → POut Expr)
    (s : PState)
    (hinner : ∀ u, InvB u = true → Good (inner u))
    (hkont : ∀ e u, InvB u = true → Good (kont e u))
    (hInv : InvB s = true) :
    Good (match inner s with
          | .ok e s' => kont e s'
          | other => other) := by
  have g := hinner s hInv
  cases hr : inner s with
  | ok e s' => rw [hr] at g; exact hkont e s' g
  | perr s' => rw [hr] at g; exact g
  | panic => rw [hr] at g; exact g.elim
  | litPanic => trivial
  | oof => trivial

lemma loop_good (ops : List TokenType) (next : PState → POut Expr)
    (kont : Expr → PState → POut Expr) (acc : Expr) (s : PState)
    (hnext : ∀ u, InvB u = true → Good (next u))
    (hkont : ∀ e u, InvB u = true → Good (kont e u))
    (hInv : InvB s = true) :
    Good (match matchTokens s ops with
          | (true, s1) => leftLoopStep next acc s1 kont
          | (false, s1) => POut.ok acc s1) := by
  rcases hm : matchTokens s ops with ⟨b, s1⟩
  cases b with
  | false =>
      have := match_false s s1 ops hm
      subst this
      exact hInv
  | true =>
      rcases match_true s s1 ops hInv hm with ⟨hInv1, t, hprev⟩
      exact loopStep_good next kont acc s1 hnext hkont hInv1 t hprev

lemma parseRun_good : ∀ n c s, InvB s = true → Good (parseRun n c s) := by
  intro n
  induction n with
  | zero => intro c s _; exact trivial
  | succ n ih =>
      intro c s h
      cases c with
      | pExpression => exact ih .pEquality s h
      | pEquality =>
          exact level_good (parseRun n .pComparison) (fun e s' => parseRun n (.pEqLoop e) s') s
            (fun u hu => ih .pComparison u hu) (fun e u hu => ih (.pEqLoop e) u hu) h
      | pEqLoop acc =>
          exact loop_good eqOps (parseRun n .pComparison)
            (fun e s2 => parseRun n (.pEqLoop e) s2) acc s
            (fun u hu => ih .pComparison u hu) (fun e u hu => ih (.pEqLoop e) u hu) h
      | pComparison =>
          exact level_good (parseRun n .pTerm) (fun e s' => parseRun n (.pCmpLoop e) s') s
            (fun u hu => ih .pTerm u hu) (fun e u hu => ih (.pCmpLoop e) u hu) h
      | pCmpLoop acc =>
          exact loop_good cmpOps (parseRun n .pTerm)
            (fun e s2 => parseRun n (.pCmpLoop e) s2) acc s
            (fun u hu => ih .pTerm u hu) (fun e u hu => ih (.pCmpLoop e) u hu) h
      | pTerm =>
          exact level_good (parseRun n .pFactor) (fun e s' => parseRun n (.pTermLoop e) s') s
            (fun u hu => ih .pFactor u hu) (fun e u hu => ih (.pTermLoop e) u hu) h
      | pTermLoop acc =>
          exact loop_good termOps (parseRun n .pFactor)
            (fun e s2 => parseRun n (.pTermLoop e) s2) acc s
            (fun u hu => ih .pFactor u hu) (fun e u hu => ih (.pTermLoop e) u hu) h
      | pFactor =>
          exact level_good (parseRun n .pUnary) (fun e s' => parseRun n (.pFactorLoop e) s') s
            (fun u hu => ih .pUnary u hu) (fun e u hu => ih (.pFactorLoop e) u hu) h
      | pFactorLoop acc =>
          exact loop_good factorOps (parseRun n .pUnary)
            (fun e s2 => parseRun n (.pFactorLoop e) s2) acc s
            (fun u hu => ih .pUnary u hu) (fun e u hu => ih (.pFactorLoop e) u hu) h
      | pUnary =>
          show Good (match matchTokens s [.bang, .minus] with
            | (true, s1) =>
                match previousP s1 with
                | none => POut.panic
                | some op =>
                    match parseRun n .pUnary s1 with
                    | .ok r s2 => POut.ok (.unary op r) s2
                    | other => other
            | (false, _) => parseRun n .pPrimary s)
          rcases hm : matchTokens s [.bang, .minus] with ⟨b, s1⟩
          cases b with
          | false => exact ih .pPrimary s h
          | true =>
              rcases match_true s s1 _ h hm with ⟨hInv1, t, hprev⟩
              show Good (match previousP s1 with
                | none => POut.panic
                | some op =>
                    match parseRun n .pUnary s1 with
                    | .ok r s2 => POut.ok (.unary op r) s2
                    | other => other)
              rw [hprev]
              have g := ih .pUnary s1 hInv1
              cases hr : parseRun n .pUnary s1 with
              | ok r s2 => rw [hr] at g; exact g
              | perr s2 => rw [hr] at g; exact g
              | panic => rw [hr] at g; exact g.elim
              | litPanic => trivial
              | oof => trivial
      | pPrimary =>
          show Good (parseRun (n+1) .pPrimary s)
          simp only [parseRun]
          rcases hm1 : matchTokens s [.kFalse] with ⟨b1, s1⟩
          cases b1 with
          | true => exact (match_true s s1 _ h hm1).1
          | false =>
          rcases hm2 : matchTokens s [.kTrue] with ⟨b2, s2⟩
          cases b2 with
          | true => exact (match_true s s2 _ h hm2).1
          | false =>
          rcases hm3 : matchTokens s [.kNil] with ⟨b3, s3⟩
          cases b3 with
          | true => exact (match_true s s3 _ h hm3).1
          | false =>
          rcases hm4 : matchTokens s [.number, .string] with ⟨b4, s4⟩
          cases b4 with
          | true =>
              rcases match_true s s4 _ h hm4 with ⟨hInv4, t, hprev⟩
              show Good (match previousP s4 with
                | none => POut.panic
                | some t =>
                    match t.literal with
                    | none => POut.litPanic
                    | some l => POut.ok (.literal l) s4)
              rw [hprev]
              show Good (match t.literal with
                | none => POut.litPanic
                | some l => POut.ok (.literal l) s4)
              cases hl : t.literal with
              | none => trivial
              | some l => exact hInv4
          | false =>
          rcases hm5 : matchTokens s [.leftParen] with ⟨b5, s5⟩
          cases b5 with
          | true =>
              rcases match_true s s5 _ h hm5 with ⟨hInv5, t, _⟩
              show Good (match parseRun n .pExpression s5 with
                | .ok e s2 =>
                    match consumeT s2 .rightParen rparenMsg with
                    | .panic => POut.panic
                    | .litPanic => POut.litPanic
                    | .oof => POut.oof
                    | .ok _ s3 => POut.ok (.grouping e) s3
                    | .perr s3 => POut.ok (.grouping e) s3
                | other => other)
              have g := ih .pExpression s5 hInv5
              cases hr : parseRun n .pExpression s5 with
              | ok e s6 =>
                  rw [hr] at g
                  have gc := consume_good s6 .rightParen rparenMsg g
                  show Good (match consumeT s6 .rightParen rparenMsg with
                    | .panic => POut.panic
                    | .litPanic => POut.litPanic
                    | .oof => POut.oof
                    | .ok _ s3 => POut.ok (.grouping e) s3
                    | .perr s3 => POut.ok (.grouping e) s3)
                  cases hc : consumeT s6 .rightParen rparenMsg with
                  | ok u s7 => rw [hc] at gc; exact gc
                  | perr s7 => rw [hc] at gc; exact gc
                  | panic => rw [hc] at gc; exact gc.elim
                  | litPanic => trivial
                  | oof => trivial
              | perr s6 => rw [hr] at g; exact g
              | panic => rw [hr] at g; exact g.elim
              | litPanic => trivial
              | oof => trivial
          | false =>
              have hpk := peek_isSome_of_inv s h
              show Good (match peekP s with
                | none => POut.panic
                | some t => POut.perr (recordError s t "Expect expression."))
              cases hp : peekP s with
              | none => rw [hp] at hpk; cases hpk
              | some t =>
                  show InvB (recordError s t "Expect expression.") = true
                  rw [inv_recordError]; exact h


lemma syncLoop_stop (n : Nat) (t s' : PState) (h : syncLoopF n t = some s') :
    syncStop s' = true := by
  induction n generalizing t with
  | zero =>
      unfold syncLoopF at h
      by_cases hs : syncStop t = true
      · rw [if_pos hs] at h; cases h; exact hs
      · rw [if_neg hs] at h; cases h
  | succ n ih =>
      unfold syncLoopF at h
      by_cases hs : syncStop t = true
      · rw [if_pos hs] at h; cases h; exact hs
      · rw [if_neg hs] at h; exact ih _ h

/-- Claim C9: for every token vector whose last element is an Eof token (the
shape `scan_tokens` produces), the parser's cursor never moves past the Eof
token, `peek` always returns `some`, and the unwrap calls on `peek`/`previous`
results in `primary`, `consume` and `left_binop` never panic, for any
interleaving of the parsing functions starting from `parse` (quantified here
over every entry point `c` and every fuel `n`). -/
theorem C9_parser_cursor_safety (n : Nat) (c : PCall) (s : PState) (h : InvB s = true) :
    Good (parseRun n c s) ∧ Good (parseF n s) ∧ (peekP s).isSome = true := by
  refine ⟨parseRun_good n c s h, ?_, peek_isSome_of_inv s h⟩
  unfold parseF expressionF
  have g := parseRun_good n .pExpression s h
  cases hr : parseRun n .pExpression s with
  | ok e s' => rw [hr] at g; exact g
  | perr s' => rw [hr] at g; exact g
  | panic => rw [hr] at g; exact g.elim
  | litPanic => trivial
  | oof => trivial

/-- Witness for C9 at the concrete one-token vector `[Eof]`. -/
theorem C9_parser_cursor_safety_witness :
    InvB (mkPState [eofTok]) = true ∧
    (Good (parseRun 5 .pExpression (mkPState [eofTok])) ∧
     Good (parseF 5 (mkPState [eofTok])) ∧
     (peekP (mkPState [eofTok])).isSome = true) :=
  ⟨by decide, C9_parser_cursor_safety 5 .pExpression (mkPState [eofTok]) (by decide)⟩

/-- Claim C10: on `(` followed by a well-formed expression followed by a
token that is not `)`, `primary` records the syntax error
"Expect ')' after expression." in the sink but still returns a successful
result holding the Grouping node: the Err from `consume` is discarded. -/
theorem C10_grouping_error_discarded (n : Nat) (s s2 : PState) (e : Expr) (t : Token)
    (hlp : checkP s .leftParen = true)
    (hexp : parseRun n .pExpression (advanceP s).2 = .ok e s2)
    (hrp : checkP s2 .rightParen = false)
    (hpk : peekP s2 = some t) :
    parseRun (n + 1) .pPrimary s = .ok (.grouping e) (recordError s2 t rparenMsg) := by
  have hf : ∀ k, k ≠ TokenType.leftParen → checkP s k = false :=
    fun k hk => check_ne s .leftParen k hlp hk
  have h1 : matchTokens s [.kFalse] = (false, s) := by
    simp [matchTokens, hf TokenType.kFalse (by decide)]
  have h2 : matchTokens s [.kTrue] = (false, s) := by
    simp [matchTokens, hf TokenType.kTrue (by decide)]
  have h3 : matchTokens s [.kNil] = (false, s) := by
    simp [matchTokens, hf TokenType.kNil (by decide)]
  have h4 : matchTokens s [.number, .string] = (false, s) := by
    simp [matchTokens, hf TokenType.number (by decide), hf TokenType.string (by decide)]
  have h5 : matchTokens s [.leftParen] = (true, (advanceP s).2) := by
    simp [matchTokens, hlp]
  have hcons : consumeT s2 .rightParen rparenMsg = .perr (recordError s2 t rparenMsg) := by
    unfold consumeT
    rw [if_neg (by simp [hrp])]
    rw [hpk]
  simp only [parseRun]
  rw [h1, h2, h3, h4, h5]
  show (match parseRun n .pExpression (advanceP s).2 with
    | POut.ok e s2 =>
        match consumeT s2 .rightParen rparenMsg with
        | POut.panic => POut.panic
        | POut.litPanic => POut.litPanic
        | POut.oof => POut.oof
        | POut.ok _ s3 => POut.ok (.grouping e) s3
        | POut.perr s3 => POut.ok (.grouping e) s3
    | other => other) = POut.ok (.grouping e) (recordError s2 t rparenMsg)
  rw [hexp]
  show (match consumeT s2 .rightParen rparenMsg with
    | POut.panic => POut.panic
    | POut.litPanic => POut.litPanic
    | POut.oof => POut.oof
    | POut.ok _ s3 => POut.ok (Expr.grouping e) s3
    | POut.perr s3 => POut.ok (Expr.grouping e) s3) = POut.ok (Expr.grouping e) (recordError s2 t rparenMsg)
  rw [hcons]

/-- Witness for C10 on the token form of `( 1 ;`. -/
theorem C10_grouping_error_discarded_witness :
    (checkP (mkPState groupBadTokens) .leftParen = true ∧
     parseRun 10 .pExpression (advanceP (mkPState groupBadTokens)).2 =
       .ok (.literal (.numberL 1)) ⟨groupBadTokens, 2, []⟩ ∧
     checkP (⟨groupBadTokens, 2, []⟩ : PState) .rightParen = false ∧
     peekP (⟨groupBadTokens, 2, []⟩ : PState) = some semiTok) ∧
    parseRun 11 .pPrimary (mkPState groupBadTokens) =
      .ok (.grouping (.literal (.numberL 1)))
        (recordError ⟨groupBadTokens, 2, []⟩ semiTok rparenMsg) :=
  ⟨⟨by decide, by decide, by decide, by decide⟩,
   C10_grouping_error_discarded 10 (mkPState groupBadTokens) ⟨groupBadTokens, 2, []⟩
     (.literal (.numberL 1)) semiTok (by decide) (by decide) (by decide) (by decide)⟩

/-- Claim C6 (amended): `synchronize` does discard tokens until it has just
consumed a semicolon, the next token is a statement keyword, or Eof is
reached — but `parse` never invokes it: the first parse failure aborts the
whole parse, so the two-malformed-statement program `+ 1 ; + 2 ;` reports
exactly one syntax error, not two. -/
theorem C6_synchronize_unused (n : Nat) (s s' : PState) (h : synchronizeF n s = some s') :
    syncStop s' = true ∧
    poutErrors (parseF 30 (mkPState twoBadTokens)) = [(plusTok, "Expect expression.")] := by
  constructor
  · unfold synchronizeF at h
    exact syncLoop_stop n _ s' h
  · decide

/-- Witness for C6's amended claim: a concrete `synchronize` run on the
two-malformed-statement program stops just past the first semicolon. -/
theorem C6_synchronize_unused_witness :
    synchronizeF 10 (mkPState twoBadTokens) = some ⟨twoBadTokens, 3, []⟩ ∧
    (syncStop (⟨twoBadTokens, 3, []⟩ : PState) = true ∧
     poutErrors (parseF 30 (mkPState twoBadTokens)) = [(plusTok, "Expect expression.")]) :=
  ⟨by decide, C6_synchronize_unused 10 (mkPState twoBadTokens) ⟨twoBadTokens, 3, []⟩ (by decide)⟩

/-- Claim C1 (refuting evaluation): `is_equal` falls through its catch-all
for every pair of numbers and every pair of strings, so `1 == 1.0`
evaluates to `false` (the claim and spec say numbers and strings compare
by value and that this example yields `true`). -/
theorem C1_strict_equality_eval :
    evaluate (.binary (.literal (.numberL 1)) eqeqTok (.literal (.numberL 1))) =
      Except.ok (Value.bool false) ∧
    is_equal (.number 1) (.number 1) = false ∧
    is_equal (.str "a") (.str "a") = false :=
  ⟨rfl, rfl, rfl⟩

/-- Claim C2 (refuting evaluation): scanning the two-character source of a
double quote followed by `a` never terminates, for every amount of fuel —
the string loop advances only on newline characters, so `scan_tokens`
never returns its Eof-terminated token sequence. -/
theorem C2_scan_tokens_diverges : ∀ n, scan_tokens n "\"a" = none := by
  intro n
  unfold scan_tokens
  rw [show mkScanState "\"a" = ⟨'"' :: 'a' :: [], 0, 0, 1, [], []⟩ from rfl]
  rw [scanLoop_quote_stuck 'a' [] (by decide) (by decide) n]
  rfl

/-- Claim C3 (refuting evaluation): scanning the well-formed string source
`"abc"` never terminates for any amount of fuel, so no String token with
literal `abc` is ever produced. -/
theorem C3_string_scan_diverges : ∀ n, scan_tokens n "\"abc\"" = none := by
  intro n
  unfold scan_tokens
  rw [show mkScanState "\"abc\"" = ⟨'"' :: 'a' :: ['b', 'c', '"'], 0, 0, 1, [], []⟩ from rfl]
  rw [scanLoop_quote_stuck 'a' ['b', 'c', '"'] (by decide) (by decide) n]
  rfl

/-- Claim C5 (refuting evaluation): on the unterminated-string source of a
double quote followed by `hi`, the scanning stage neither records the
lexical error nor returns any result to the driver, for every amount of
fuel — it spins inside the string loop. -/
theorem C5_scan_never_returns : ∀ n, scan_tokens n "\"hi" = none := by
  intro n
  unfold scan_tokens
  rw [show mkScanState "\"hi" = ⟨'"' :: 'h' :: ['i'], 0, 0, 1, [], []⟩ from rfl]
  rw [scanLoop_quote_stuck 'h' ['i'] (by decide) (by decide) n]
  rfl

/-- Claim C4 (counterexample): parsing the token form of the statement
`print 1 ;` does not yield a Print-statement — `parse` parses a single
expression, chokes on the `print` keyword with "Expect expression.", and
returns no result at all. -/
theorem C4_print_statement_refuted :
    parsedExpr (parseF 30 (mkPState printProgTokens)) = none ∧
    poutErrors (parseF 30 (mkPState printProgTokens)) = [(printTok, "Expect expression.")] := by
  constructor <;> decide

/-- Claim C4 (amended): `parse` produces at most one expression, never a
statement sequence: on the token form of `1 + 2 ;` it returns the binary
expression (ignoring the semicolon and everything after), and on the token
form of `print 1 ;` it reports "Expect expression." at the `print` keyword
and returns none. -/
theorem C4_parse_single_expression :
    parsedExpr (parseF 30 (mkPState exprProgTokens)) =
      some (.binary (.literal (.numberL 1)) plusTok (.literal (.numberL 2))) ∧
    poutErrors (parseF 30 (mkPState exprProgTokens)) = [] ∧
    parsedExpr (parseF 30 (mkPState printProgTokens)) = none := by
  refine ⟨by decide, by decide, by decide⟩

/-- Claim C6 (counterexample): the program `+ 1 ; + 2 ;` with two malformed
statements separated by semicolons reports exactly one syntax error (at
the first `+`), not the two errors the claim requires — `parse` never
reaches the second statement because it never synchronizes. -/
theorem C6_one_error_not_two :
    poutErrors (parseF 30 (mkPState twoBadTokens)) = [(plusTok, "Expect expression.")] := by
  decide

/-- Claim C7: the token sequence of `1 + 2 * 3` parses to `1 + (2 * 3)`
(multiplication binds tighter) and evaluates to the number 7, and the token
sequence of `(1 + 2) * 3` parses with the grouped sum as the left operand
of the multiplication and evaluates to 9. -/
theorem C7_precedence_evaluation :
    scanParse 50 "1 + 2 * 3" = some tree7 ∧
    evaluate tree7 = Except.ok (Value.number 7) ∧
    scanParse 50 "(1 + 2) * 3" = some tree9 ∧
    evaluate tree9 = Except.ok (Value.number 9) := by
  refine ⟨by decide, ?_, by decide, ?_⟩
  · show Except.ok (Value.number ((1 : ℚ) + 2 * 3)) = Except.ok (Value.number 7)
    norm_num
  · show Except.ok (Value.number (((1 : ℚ) + 2) * 3)) = Except.ok (Value.number 9)
    norm_num

/-- Claim C8: `interpret` executes statements in order; when one statement's
evaluation fails with a runtime error, that error is reported to the sink,
only that statement's execution stops (it contributes no output), and every
following statement still runs and contributes its output. -/
theorem C8_interpret_continues_after_error (pre post : List Stmt) (s : Stmt)
    (e : RuntimeError) (h : execute s = .error e) :
    interpret (pre ++ s :: post) =
      ((interpret pre).1 ++ (interpret post).1,
       (interpret pre).2 ++ e :: (interpret post).2) := by
  rw [interpret_append]
  simp [interpret, h]

/-- Witness for C8: `print "hi" ; - "abc" ; print 2 ;` prints both lines
and reports the one runtime error of the middle statement. -/
theorem C8_interpret_continues_witness :
    execute badMinusStmt = Except.error minusStrErr ∧
    interpret ([printHiStmt] ++ badMinusStmt :: [printTwoStmt]) =
      ((interpret [printHiStmt]).1 ++ (interpret [printTwoStmt]).1,
       (interpret [printHiStmt]).2 ++ minusStrErr :: (interpret [printTwoStmt]).2) :=
  ⟨rfl, C8_interpret_continues_after_error [printHiStmt] [printTwoStmt] badMinusStmt minusStrErr rfl⟩

end RLox
